import Mathlib

set_option allowUnsafeReducibility true
attribute [semireducible] Rat.add Rat.sub Rat.mul Rat.inv

/-!
A verification development for the Multi-Tenant BI Platform ETL pipeline
(`main.py`).  The pipeline's data frames, warehouse tables, metric
transforms, loader, dashboard queries and run skeleton are embedded as
executable Lean definitions, and the theorems below settle the documented
properties against this embedding.

Cell values are modelled exactly: a float cell is a rational number
together with the special IEEE values NaN and plus/minus infinity, so that
the pandas behaviour of `x / 0` (infinity for nonzero `x`, NaN for
`0 / 0`) and of `fillna` (which replaces only NaN, never infinity) is
captured faithfully.  Wall-clock timestamps are abstracted to a constant
cell value, and the autoincrement row identifier is modelled by a counter
on each table.
-/

/-- Errors raised by the pipeline stages (in the source these are the
Python exceptions that each stage logs and re-raises). -/
inductive ETLError where
  | keyError
  | typeError
  | noSuchColumn
  | notNullViolation
  | unknownQueryType
  deriving DecidableEq

/-- A cell value: a string, an exact rational (covering both the integer
and the finite float cells), the special float values NaN and plus/minus
infinity, or SQL NULL. -/
inductive Value where
  | str (s : String)
  | num (q : ℚ)
  | nan
  | posInf
  | negInf
  | null
  deriving DecidableEq

/-- Element-wise division as pandas/numpy perform it on numeric columns:
division by zero produces plus/minus infinity for a nonzero numerator and
NaN for `0 / 0`; NaN (and missing values, which pandas stores as NaN)
propagate; dividing a string cell is a type error (`none`). -/
def Value.divV : Value → Value → Option Value
  | .str _, _ => none
  | _, .str _ => none
  | .nan, _ => some .nan
  | .null, _ => some .nan
  | _, .nan => some .nan
  | _, .null => some .nan
  | .num a, .num b =>
      some (if b = 0 then (if a = 0 then .nan else if 0 < a then .posInf else .negInf)
            else .num (a / b))
  | .posInf, .num b => some (if b < 0 then .negInf else .posInf)
  | .negInf, .num b => some (if b < 0 then .posInf else .negInf)
  | .num _, .posInf => some (.num 0)
  | .num _, .negInf => some (.num 0)
  | .posInf, .posInf => some .nan
  | .posInf, .negInf => some .nan
  | .negInf, .posInf => some .nan
  | .negInf, .negInf => some .nan

/-- Element-wise subtraction with the same IEEE conventions. -/
def Value.subV : Value → Value → Option Value
  | .str _, _ => none
  | _, .str _ => none
  | .nan, _ => some .nan
  | .null, _ => some .nan
  | _, .nan => some .nan
  | _, .null => some .nan
  | .num a, .num b => some (.num (a - b))
  | .posInf, .num _ => some .posInf
  | .negInf, .num _ => some .negInf
  | .num _, .posInf => some .negInf
  | .num _, .negInf => some .posInf
  | .posInf, .posInf => some .nan
  | .posInf, .negInf => some .posInf
  | .negInf, .posInf => some .negInf
  | .negInf, .negInf => some .nan

/-- Round a rational to `d` decimal places (nearest multiple of
`10 ^ (-d)`). -/
def roundQ (d : ℕ) (q : ℚ) : ℚ :=
  ((round (q * 10 ^ d) : ℤ) : ℚ) / 10 ^ d

/-- `Series.round(d)`: rounds finite values, leaves NaN and the infinities
unchanged. -/
def Value.roundV (d : ℕ) : Value → Value
  | .num q => .num (roundQ d q)
  | v => v

/-- `Series.fillna(repl)`: replaces NaN (and missing) cells only; the
infinities are not missing values and are left in place. -/
def Value.fillnaV (repl : Value) : Value → Value
  | .nan => repl
  | .null => repl
  | v => v

/-- First index of a column name in a header list. -/
def idxOf? (c : String) : List String → Option ℕ
  | [] => none
  | x :: xs => if x = c then some 0 else (idxOf? c xs).map (· + 1)

/-- A record set (pandas `DataFrame`): an ordered header row and the data
rows, each row aligned positionally with the header. -/
structure Frame where
  cols : List String
  rows : List (List Value)
  deriving DecidableEq

/-- A frame is well-formed (rectangular) when every row has exactly one
cell per column. -/
def Frame.wf (df : Frame) : Bool :=
  df.rows.all fun r => decide (r.length = df.cols.length)

/-- `df[c]`: the column named `c`, if present. -/
def Frame.getCol (df : Frame) (c : String) : Option (List Value) :=
  (idxOf? c df.cols).map fun i => df.rows.map fun r => r.getD i Value.null

/-- `df[c] = vs`: column assignment; overwrites the column in place when
the name exists, otherwise appends a new last column, exactly as pandas
does. -/
def Frame.setCol (df : Frame) (c : String) (vs : List Value) : Frame :=
  match idxOf? c df.cols with
  | some i => ⟨df.cols, List.zipWith (fun r v => r.set i v) df.rows vs⟩
  | none => ⟨df.cols ++ [c], List.zipWith (fun r v => r ++ [v]) df.rows vs⟩

/-- Element-wise combination of two columns, failing if any single cell
operation is a type error. -/
def zipOp (f : Value → Value → Option Value) : List Value → List Value → Option (List Value)
  | [], _ => some []
  | _, [] => some []
  | a :: as, b :: bs => do
      let c ← f a b
      let cs ← zipOp f as bs
      return c :: cs

/-- `ETLPipeline.transform_campaigns`: derives
`ctr = (clicks / impressions).round(4)` and
`roi = ((revenue - spend) / spend).round(2)`, then replaces NaN by `0` in
both derived columns (`fillna(0)`), in exactly the statement order of the
source. -/
def transform_campaigns (df : Frame) : Except ETLError Frame :=
  match df.getCol "clicks" with
  | none => .error .keyError
  | some cl =>
    match df.getCol "impressions" with
    | none => .error .keyError
    | some im =>
      match zipOp Value.divV cl im with
      | none => .error .typeError
      | some ctr0 =>
        let df1 := df.setCol "ctr" (ctr0.map (Value.roundV 4))
        match df1.getCol "revenue" with
        | none => .error .keyError
        | some rev =>
          match df1.getCol "spend" with
          | none => .error .keyError
          | some sp =>
            match zipOp Value.subV rev sp with
            | none => .error .typeError
            | some diff =>
              match zipOp Value.divV diff sp with
              | none => .error .typeError
              | some roi0 =>
                let df2 := df1.setCol "roi" (roi0.map (Value.roundV 2))
                match df2.getCol "ctr" with
                | none => .error .keyError
                | some c2 =>
                  let df3 := df2.setCol "ctr" (c2.map (Value.fillnaV (Value.num 0)))
                  match df3.getCol "roi" with
                  | none => .error .keyError
                  | some r3 =>
                    .ok (df3.setCol "roi" (r3.map (Value.fillnaV (Value.num 0))))

/-- `ETLPipeline.transform_targets`: derives
`target_roi = (target_revenue / target_spend).round(2)` and then applies
`fillna(0)` to it. -/
def transform_targets (df : Frame) : Except ETLError Frame :=
  match df.getCol "target_revenue" with
  | none => .error .keyError
  | some rev =>
    match df.getCol "target_spend" with
    | none => .error .keyError
    | some sp =>
      match zipOp Value.divV rev sp with
      | none => .error .typeError
      | some t0 =>
        let df1 := df.setCol "target_roi" (t0.map (Value.roundV 2))
        match df1.getCol "target_roi" with
        | none => .error .keyError
        | some t1 =>
          .ok (df1.setCol "target_roi" (t1.map (Value.fillnaV (Value.num 0))))

/-- `ETLPipeline.transform_customers`: derives
`avg_order_value = (total_spent / total_orders).round(2)` and then applies
`fillna(0)` to it. -/
def transform_customers (df : Frame) : Except ETLError Frame :=
  match df.getCol "total_spent" with
  | none => .error .keyError
  | some ts =>
    match df.getCol "total_orders" with
    | none => .error .keyError
    | some tor =>
      match zipOp Value.divV ts tor with
      | none => .error .typeError
      | some a0 =>
        let df1 := df.setCol "avg_order_value" (a0.map (Value.roundV 2))
        match df1.getCol "avg_order_value" with
        | none => .error .keyError
        | some a1 =>
          .ok (df1.setCol "avg_order_value" (a1.map (Value.fillnaV (Value.num 0))))

/-- In Python the three transforms assign columns on the caller's
`DataFrame` object in place and then return that same object, so after a
successful call the argument and the returned record set are one and the
same (mutated) frame.  The first component is the state of the caller's
argument after the call, the second the returned value. -/
def transformCampaignsCall (df : Frame) : Except ETLError (Frame × Frame) :=
  (transform_campaigns df).map fun r => (r, r)

/-- A raw campaign input frame with one record:
`impressions = 0, clicks = 5, conversions = 3, spend = 100, revenue = 0`. -/
def exCampaignFrame : Frame :=
  ⟨[ "tenant_id", "campaign_id", "campaign_name", "date", "impressions",
     "clicks", "conversions", "spend", "revenue", "region", "product" ],
   [[ Value.str "tenant_a", Value.str "camp_tenant_a_000", Value.str "Campaign 1",
      Value.str "2024-10-01", Value.num 0, Value.num 5, Value.num 3,
      Value.num 100, Value.num 0, Value.str "North America", Value.str "Product A" ]]⟩

/-- A raw customer input frame with one record:
`total_spent = 500, total_orders = 0`. -/
def exCustomerFrame : Frame :=
  ⟨[ "tenant_id", "customer_id", "customer_name", "region",
     "product_preference", "total_spent", "total_orders" ],
   [[ Value.str "tenant_a", Value.str "cust_tenant_a_000", Value.str "Customer 1",
      Value.str "Europe", Value.str "Product A", Value.num 500, Value.num 0 ]]⟩

/-- One column of a warehouse table: its name, whether it carries a
`NOT NULL` constraint, whether it is the `INTEGER PRIMARY KEY
AUTOINCREMENT` identifier, and whether it has a
`DEFAULT CURRENT_TIMESTAMP` clause. -/
structure ColSpec where
  name : String
  notNull : Bool
  isAuto : Bool
  hasDefault : Bool
  deriving DecidableEq

/-- A warehouse table: its column schema, the next autoincrement
identifier, and the stored rows (aligned positionally with the schema). -/
structure Table where
  schema : List ColSpec
  nextId : ℕ
  rows : List (List Value)
  deriving DecidableEq

/-- The relational store: the tables of the single SQLite file, by name. -/
abbrev Database := List (String × Table)

/-- The `CREATE TABLE fact_campaigns` column list of `setup_database`. -/
def factCampaignsSchema : List ColSpec :=
  [ ⟨ "id", true, true, false⟩,
    ⟨ "tenant_id", true, false, false⟩,
    ⟨ "campaign_id", true, false, false⟩,
    ⟨ "campaign_name", false, false, false⟩,
    ⟨ "date", false, false, false⟩,
    ⟨ "impressions", false, false, false⟩,
    ⟨ "clicks", false, false, false⟩,
    ⟨ "conversions", false, false, false⟩,
    ⟨ "spend", false, false, false⟩,
    ⟨ "revenue", false, false, false⟩,
    ⟨ "ctr", false, false, false⟩,
    ⟨ "roi", false, false, false⟩,
    ⟨ "region", false, false, false⟩,
    ⟨ "product", false, false, false⟩,
    ⟨ "created_at", false, false, true⟩ ]

/-- The `CREATE TABLE dim_sales_targets` column list of `setup_database`
(note: it has no `target_roi` column). -/
def dimSalesTargetsSchema : List ColSpec :=
  [ ⟨ "id", true, true, false⟩,
    ⟨ "tenant_id", true, false, false⟩,
    ⟨ "region", false, false, false⟩,
    ⟨ "product", false, false, false⟩,
    ⟨ "month", false, false, false⟩,
    ⟨ "year", false, false, false⟩,
    ⟨ "target_revenue", false, false, false⟩,
    ⟨ "target_conversions", false, false, false⟩,
    ⟨ "target_spend", false, false, false⟩,
    ⟨ "created_at", false, false, true⟩ ]

/-- The `CREATE TABLE dim_customers` column list of `setup_database`
(note: it has no `avg_order_value` column). -/
def dimCustomersSchema : List ColSpec :=
  [ ⟨ "id", true, true, false⟩,
    ⟨ "tenant_id", true, false, false⟩,
    ⟨ "customer_id", true, false, false⟩,
    ⟨ "customer_name", false, false, false⟩,
    ⟨ "region", false, false, false⟩,
    ⟨ "product_preference", false, false, false⟩,
    ⟨ "total_spent", false, false, false⟩,
    ⟨ "total_orders", false, false, false⟩,
    ⟨ "created_at", false, false, true⟩ ]

/-- `CREATE TABLE IF NOT EXISTS`: a no-op when a table of that name is
already present (whatever its columns), otherwise creates an empty table
with the given schema. -/
def createTableIfNotExists (db : Database) (nm : String) (sch : List ColSpec) : Database :=
  if db.any (fun p => p.1 = nm) then db else db ++ [(nm, ⟨sch, 1, []⟩)]

/-- `ETLPipeline.setup_database`: issues the three `CREATE TABLE IF NOT
EXISTS` statements against the store. -/
def setup_database (db : Database) : Database :=
  let db1 := createTableIfNotExists db "fact_campaigns" factCampaignsSchema
  let db2 := createTableIfNotExists db1 "dim_sales_targets" dimSalesTargetsSchema
  createTableIfNotExists db2 "dim_customers" dimCustomersSchema

/-- Look a table up by name. -/
def lookupTable (db : Database) (nm : String) : Option Table :=
  (db.find? fun p => p.1 = nm).map fun p => p.2

/-- Whether a table of this name exists in the store. -/
def hasTable (db : Database) (nm : String) : Bool :=
  db.any fun p => p.1 = nm

/-- Whether the named table exists and has a column of the given name. -/
def tableHasColumn (db : Database) (nm c : String) : Bool :=
  match lookupTable db nm with
  | some t => t.schema.any fun s => s.name = c
  | none => false

/-- The cell stored for schema column `c` when inserting a record
(`r` aligned with `cols`) whose autoincrement identifier would be `idv`:
the record's own value when the record has the column, otherwise the
autoincrement identifier, the timestamp default, or SQL NULL. -/
def buildCell (cols : List String) (idv : ℕ) (r : List Value) (c : ColSpec) : Value :=
  match idxOf? c.name cols with
  | some i => r.getD i Value.null
  | none =>
      if c.isAuto then Value.num idv
      else if c.hasDefault then Value.str "CURRENT_TIMESTAMP"
      else Value.null

/-- The full stored row for one inserted record. -/
def buildRow (sch : List ColSpec) (cols : List String) (idv : ℕ) (r : List Value) : List Value :=
  sch.map (buildCell cols idv r)

/-- The stored rows for a batch of records, with consecutive
autoincrement identifiers starting at `startId`. -/
def buildRows (sch : List ColSpec) (cols : List String) (startId : ℕ) :
    List (List Value) → List (List Value)
  | [] => []
  | r :: rs => buildRow sch cols startId r :: buildRows sch cols (startId + 1) rs

/-- A stored row satisfies its `NOT NULL` constraints. -/
def rowNotNullOk (sch : List ColSpec) (row : List Value) : Bool :=
  (sch.zip row).all fun p => !(p.1.notNull && decide (p.2 = Value.null))

/-- The record set mentions a column the target table does not have
(`INSERT` preparation fails with an unknown-column error). -/
def extraColumn (df : Frame) (t : Table) : Bool :=
  df.cols.any fun c => !(t.schema.any fun s => s.name = c)

/-- `ETLPipeline.load_to_database` (`df.to_sql(..., if_exists='append')`):
appends every record as a new row, assigning identifiers and timestamp
defaults automatically.  With zero records the pandas insert returns
early without preparing any statement, so nothing happens and no error
is raised whatever the columns are.  Otherwise the insert statement
fails to prepare when the record set has a column the table lacks, and a
`NOT NULL` violation in any inserted row aborts and rolls the whole
batch back.  Returns the resulting table state together with the error,
if any; on error the table is unchanged. -/
def load_to_database (df : Frame) (t : Table) : Table × Option ETLError :=
  if df.rows = [] then (t, none)
  else if extraColumn df t then (t, some .noSuchColumn)
  else
    let built := buildRows t.schema df.cols t.nextId df.rows
    if built.all (rowNotNullOk t.schema) then
      (⟨t.schema, t.nextId + df.rows.length, t.rows ++ built⟩, none)
    else (t, some .notNullViolation)

/-- A fresh (just created) `dim_sales_targets` table. -/
def freshTargetsTable : Table := ⟨dimSalesTargetsSchema, 1, []⟩

/-- A fresh (just created) `dim_customers` table. -/
def freshCustomersTable : Table := ⟨dimCustomersSchema, 1, []⟩

/-- A fresh (just created) `fact_campaigns` table. -/
def freshCampaignsTable : Table := ⟨factCampaignsSchema, 1, []⟩

/-- A raw sales-target input frame with one record. -/
def exTargetFrame : Frame :=
  ⟨[ "tenant_id", "region", "product", "month", "year",
     "target_revenue", "target_conversions", "target_spend" ],
   [[ Value.str "tenant_a", Value.str "North America", Value.str "Product A",
      Value.num 1, Value.num 2024, Value.num 10000, Value.num 100, Value.num 5000 ]]⟩

/-- A committed `fact_campaigns` row as the dashboard queries see it
(the autoincrement identifier and timestamp play no role in either
query and are omitted). -/
structure CampaignRow where
  tenant_id : String
  campaign_id : String
  campaign_name : String
  date : String
  impressions : ℤ
  clicks : ℤ
  conversions : ℤ
  spend : ℚ
  revenue : ℚ
  ctr : ℚ
  roi : ℚ
  deriving DecidableEq

/-- One result row of the `campaign_summary` dashboard query. -/
structure SummaryRow where
  tenant_id : String
  total_campaigns : ℕ
  total_impressions : ℤ
  total_clicks : ℤ
  total_conversions : ℤ
  total_spend : ℚ
  total_revenue : ℚ
  avg_ctr : ℚ
  avg_roi : ℚ
  deriving DecidableEq

/-- One result row of the `daily_performance` dashboard query. -/
structure DailyRow where
  tenant_id : String
  date : String
  daily_conversions : ℤ
  daily_revenue : ℚ
  daily_spend : ℚ
  deriving DecidableEq

/-- The `GROUP BY tenant_id` group of one tenant. -/
def tenantGroup (rows : List CampaignRow) (t : String) : List CampaignRow :=
  rows.filter fun r => r.tenant_id = t

/-- The aggregate row of the `campaign_summary` query for one tenant:
`COUNT(*)`, the five `SUM`s, `ROUND(AVG(ctr), 4)` and
`ROUND(AVG(roi), 2)` over that tenant's group. -/
def summarizeTenant (rows : List CampaignRow) (t : String) : SummaryRow :=
  let g := tenantGroup rows t
  ⟨t, g.length,
   (g.map CampaignRow.impressions).sum,
   (g.map CampaignRow.clicks).sum,
   (g.map CampaignRow.conversions).sum,
   (g.map CampaignRow.spend).sum,
   (g.map CampaignRow.revenue).sum,
   roundQ 4 ((g.map CampaignRow.ctr).sum / g.length),
   roundQ 2 ((g.map CampaignRow.roi).sum / g.length)⟩

/-- The `campaign_summary` query of `execute_dashboard_query`: one
aggregate row per distinct `tenant_id`, `ORDER BY tenant_id`. -/
def campaign_summary (rows : List CampaignRow) : List SummaryRow :=
  (List.insertionSort (fun a b : String => a ≤ b)
      ((rows.map CampaignRow.tenant_id).dedup)).map (summarizeTenant rows)

/-- The `(tenant_id, date)` grouping key of the `daily_performance`
query. -/
def dayKey (r : CampaignRow) : String × String :=
  (r.tenant_id, r.date)

/-- The `GROUP BY tenant_id, date` group of one key. -/
def dayGroup (rows : List CampaignRow) (k : String × String) : List CampaignRow :=
  rows.filter fun r => dayKey r = k

/-- The aggregate row of the `daily_performance` query for one
`(tenant_id, date)` key. -/
def summarizeDay (rows : List CampaignRow) (k : String × String) : DailyRow :=
  let g := dayGroup rows k
  ⟨k.1, k.2,
   (g.map CampaignRow.conversions).sum,
   (g.map CampaignRow.revenue).sum,
   (g.map CampaignRow.spend).sum⟩

/-- `ORDER BY tenant_id, date`: lexicographic order on the grouping
keys. -/
def pairLe (a b : String × String) : Prop :=
  a.1 < b.1 ∨ (a.1 = b.1 ∧ a.2 ≤ b.2)

instance : DecidableRel pairLe := fun a b =>
  inferInstanceAs (Decidable (a.1 < b.1 ∨ (a.1 = b.1 ∧ a.2 ≤ b.2)))

instance : IsTotal (String × String) pairLe where
  total a b := by
    rcases lt_trichotomy a.1 b.1 with h | h | h
    · exact Or.inl (Or.inl h)
    · rcases le_total a.2 b.2 with h2 | h2
      · exact Or.inl (Or.inr ⟨h, h2⟩)
      · exact Or.inr (Or.inr ⟨h.symm, h2⟩)
    · exact Or.inr (Or.inl h)

instance : IsTrans (String × String) pairLe where
  trans a b c hab hbc := by
    rcases hab with h1 | ⟨e1, l1⟩
    · rcases hbc with h2 | ⟨e2, _⟩
      · exact Or.inl (h1.trans h2)
      · exact Or.inl (e2 ▸ h1)
    · rcases hbc with h2 | ⟨e2, l2⟩
      · exact Or.inl (e1 ▸ h2)
      · exact Or.inr ⟨e1.trans e2, l1.trans l2⟩

/-- The full ordered result of the `daily_performance` grouping, before
the `LIMIT` clause. -/
def daily_performance_all (rows : List CampaignRow) : List DailyRow :=
  (List.insertionSort pairLe ((rows.map dayKey).dedup)).map (summarizeDay rows)

/-- The `daily_performance` query of `execute_dashboard_query`: the
grouped, ordered rows capped by `LIMIT 50`. -/
def daily_performance (rows : List CampaignRow) : List DailyRow :=
  (daily_performance_all rows).take 50

/-- A typed sales-target dimension row (the columns the table actually
has). -/
structure TargetRowT where
  tenant_id : String
  region : String
  product : String
  month : ℤ
  year : ℤ
  target_revenue : ℚ
  target_conversions : ℤ
  target_spend : ℚ
  deriving DecidableEq

/-- A typed customer dimension row (the columns the table actually
has). -/
structure CustomerRowT where
  tenant_id : String
  customer_id : String
  customer_name : String
  region : String
  product_preference : String
  total_spent : ℚ
  total_orders : ℤ
  deriving DecidableEq

/-- The committed warehouse state the Report Engine reads: the three
tables of the store. -/
structure Warehouse where
  fact_campaigns : List CampaignRow
  dim_sales_targets : List TargetRowT
  dim_customers : List CustomerRowT
  deriving DecidableEq

/-- The tabular result of a dashboard query. -/
inductive QueryResult where
  | summary (rs : List SummaryRow)
  | daily (rs : List DailyRow)
  deriving DecidableEq

/-- `ETLPipeline.execute_dashboard_query`: dispatches on the query name;
the two known names run their `SELECT` (a pure read) and any other name
raises `ValueError("Unknown query type: ...")`.  The second component is
the warehouse state after the call: the `SELECT` statements never
mutate the store. -/
def execute_dashboard_query (query_type : String) (w : Warehouse) :
    Except ETLError QueryResult × Warehouse :=
  if query_type = "campaign_summary" then
    (.ok (.summary (campaign_summary w.fact_campaigns)), w)
  else if query_type = "daily_performance" then
    (.ok (.daily (daily_performance w.fact_campaigns)), w)
  else
    (.error .unknownQueryType, w)

/-- The stages of `main()` in source order.  `extract_api_data` is the
designed-fallback stage: it catches every failure and recovers locally,
so it never aborts the run. -/
inductive Stage where
  | setupDb
  | generateCampaigns
  | generateTargets
  | extractCsv
  | extractExcel
  | extractApi
  | transformCampaignsStage
  | transformTargetsStage
  | transformCustomersStage
  | loadCampaigns
  | loadTargets
  | loadCustomers
  | queryCampaignSummary
  | queryDailyPerformance
  deriving DecidableEq

/-- The stage order of `main()`. -/
def mainStages : List Stage :=
  [ .setupDb, .generateCampaigns, .generateTargets,
    .extractCsv, .extractExcel, .extractApi,
    .transformCampaignsStage, .transformTargetsStage, .transformCustomersStage,
    .loadCampaigns, .loadTargets, .loadCustomers,
    .queryCampaignSummary, .queryDailyPerformance ]

/-- The observable outcome of one run of `main()`: whether the run
completed, and whether the warehouse connection was closed. -/
structure RunResult where
  succeeded : Bool
  connClosed : Bool
  deriving DecidableEq

/-- The control flow of `main()`'s `try` block over a list of stages:
a failing stage propagates out of the `try`; the `except` handler only
logs and re-raises, so the connection stays open.  When every stage
completes, the final `etl.close_connection()` closes it. -/
def runStages (fails : Stage → Bool) : List Stage → RunResult
  | [] => ⟨true, true⟩
  | s :: rest =>
      if fails s && !(s = Stage.extractApi : Bool) then ⟨false, false⟩
      else runStages fails rest

/-- One run of `main()`, parameterized by which stages fail. -/
def mainRun (fails : Stage → Bool) : RunResult :=
  runStages fails mainStages

/-- The record set misses a column of the target table that is `NOT NULL`
with neither an autoincrement nor a default value, so every inserted row
would violate the constraint. -/
def missingRequired (df : Frame) (t : Table) : Bool :=
  t.schema.any fun s =>
    s.notNull && !s.isAuto && !s.hasDefault && !(decide (s.name ∈ df.cols))

/-- The grouping key of a `daily_performance` result row. -/
def dailyKey (r : DailyRow) : String × String :=
  (r.tenant_id, r.date)

/-- In-place call view of `transform_targets` (argument state after the
call, and the returned object — the same frame). -/
def transformTargetsCall (df : Frame) : Except ETLError (Frame × Frame) :=
  (transform_targets df).map fun r => (r, r)

/-- In-place call view of `transform_customers`. -/
def transformCustomersCall (df : Frame) : Except ETLError (Frame × Frame) :=
  (transform_customers df).map fun r => (r, r)

/-- The result of `transform_targets` on `exTargetFrame`:
`target_roi = round(10000 / 5000, 2) = 2` appended. -/
def exTargetTransformed : Frame :=
  ⟨[ "tenant_id", "region", "product", "month", "year",
     "target_revenue", "target_conversions", "target_spend", "target_roi" ],
   [[ Value.str "tenant_a", Value.str "North America", Value.str "Product A",
      Value.num 1, Value.num 2024, Value.num 10000, Value.num 100, Value.num 5000,
      Value.num 2 ]]⟩

/-- An empty record set (no data rows) that lacks the required
`tenant_id` column. -/
def exEmptyFrame : Frame := ⟨[ "region" ], []⟩

/-- A one-record set that lacks the required `tenant_id` column. -/
def exFrameReq : Frame := ⟨[ "region" ], [[ Value.str "Europe" ]]⟩

/-- A one-record set with a column the sales-target table does not
have. -/
def exFrameExtra : Frame := ⟨[ "target_roi" ], [[ Value.num 2 ]]⟩

/-- A committed campaign row whose `ctr` (`0.00004`) rounds away at the
4-decimal precision of the summary query. -/
def exRowTiny : CampaignRow :=
  ⟨ "tenant_a", "camp_tenant_a_000", "Campaign 1", "2024-10-01",
    100, 5, 1, 100, 100, 1/25000, 0⟩

/-- A one-row warehouse fact table used to witness the summary query
bounds. -/
def exW6 : List CampaignRow :=
  [⟨ "tenant_a", "camp_tenant_a_000", "Campaign 1", "2024-10-01",
     100, 50, 10, 100, 200, 1/2, 1⟩]

/-- The summary row produced for `exW6`. -/
def exSummary6 : SummaryRow :=
  ⟨ "tenant_a", 1, 100, 50, 10, 100, 200, 1/2, 1⟩

/-- A one-row warehouse fact table used to witness the daily query. -/
def exW7 : List CampaignRow :=
  [⟨ "tenant_b", "camp_tenant_b_000", "Campaign 2", "2024-10-02",
     10, 1, 1, 10, 20, 1/10, 1⟩]

/-- The daily-performance row produced for `exW7`. -/
def exDaily7 : DailyRow :=
  ⟨ "tenant_b", "2024-10-02", 1, 20, 10⟩

/-- An empty warehouse. -/
def exW9 : Warehouse := ⟨[], [], []⟩

theorem idxOf?_eq_none {c : String} {l : List String} (h : c ∉ l) : idxOf? c l = none := by
  induction l with
  | nil => rfl
  | cons x xs ih =>
    have hx : ¬ x = c := fun hx => h (hx ▸ List.mem_cons_self x xs)
    have hxs : c ∉ xs := fun hm => h (List.mem_cons_of_mem x hm)
    simp only [idxOf?, if_neg hx, ih hxs, Option.map_none']

theorem idxOf?_append_left {c : String} {l : List String} (l' : List String) (h : c ∈ l) :
    idxOf? c (l ++ l') = idxOf? c l := by
  induction l with
  | nil => exact absurd h (List.not_mem_nil c)
  | cons x xs ih =>
    by_cases hx : x = c
    · simp only [List.cons_append, idxOf?, if_pos hx]
    · have hxs : c ∈ xs := by
        rcases List.mem_cons.mp h with h1 | h1
        · exact absurd h1.symm hx
        · exact h1
      simp only [List.cons_append, idxOf?, List.append_eq]
      rw [if_neg hx, ih hxs, if_neg hx]

theorem idxOf?_append_self {c : String} {l : List String} (h : c ∉ l) :
    idxOf? c (l ++ [c]) = some l.length := by
  induction l with
  | nil => simp [idxOf?]
  | cons x xs ih =>
    have hx : ¬ x = c := fun hx => h (hx ▸ List.mem_cons_self x xs)
    have hxs : c ∉ xs := fun hm => h (List.mem_cons_of_mem x hm)
    simp only [List.cons_append, idxOf?, List.append_eq]
    rw [if_neg hx, ih hxs]
    simp

theorem idxOf?_lt_length {c : String} {l : List String} {i : ℕ}
    (h : idxOf? c l = some i) : i < l.length := by
  induction l generalizing i with
  | nil => exact absurd h (by simp [idxOf?])
  | cons x xs ih =>
    by_cases hx : x = c
    · simp only [idxOf?, if_pos hx, Option.some.injEq] at h
      subst h
      simp only [List.length_cons]
      omega
    · simp only [idxOf?, if_neg hx] at h
      rcases Option.map_eq_some'.mp h with ⟨j, hj, hji⟩
      have := ih hj
      simp only [List.length_cons]
      omega

theorem idxOf?_get? {c : String} {l : List String} {i : ℕ}
    (h : idxOf? c l = some i) : l.get? i = some c := by
  induction l generalizing i with
  | nil => exact absurd h (by simp [idxOf?])
  | cons x xs ih =>
    by_cases hx : x = c
    · simp only [idxOf?, if_pos hx, Option.some.injEq] at h
      subst hx
      cases h
      rfl
    · simp only [idxOf?, if_neg hx] at h
      rcases Option.map_eq_some'.mp h with ⟨j, hj, hji⟩
      cases hji
      simpa using ih hj

theorem idxOf?_exists {c : String} {l : List String} (h : c ∈ l) :
    ∃ i, idxOf? c l = some i ∧ i < l.length := by
  induction l with
  | nil => exact absurd h (List.not_mem_nil c)
  | cons x xs ih =>
    by_cases hx : x = c
    · exact ⟨0, by simp [idxOf?, if_pos hx], by simp⟩
    · have hxs : c ∈ xs := by
        rcases List.mem_cons.mp h with h1 | h1
        · exact absurd h1.symm hx
        · exact h1
      rcases ih hxs with ⟨j, hj, hjl⟩
      refine ⟨j + 1, by simp [idxOf?, if_neg hx, hj], by simp [Nat.succ_lt_succ hjl]⟩

theorem getD_append_left {α : Type} (r s : List α) (i : ℕ) (d : α) (h : i < r.length) :
    (r ++ s).getD i d = r.getD i d := by
  induction r generalizing i with
  | nil => simp at h
  | cons x xs ih =>
    cases i with
    | zero => rfl
    | succ j =>
      simp only [List.cons_append, List.getD_cons_succ]
      exact ih j (by simp only [List.length_cons] at h; omega)

theorem getD_append_self {α : Type} (r : List α) (v d : α) :
    (r ++ [v]).getD r.length d = v := by
  induction r with
  | nil => rfl
  | cons x xs ih =>
    simp only [List.cons_append, List.length_cons, List.getD_cons_succ]
    exact ih

theorem getD_set_ne {α : Type} (r : List α) (i j : ℕ) (v d : α) (h : j ≠ i) :
    (r.set i v).getD j d = r.getD j d := by
  induction r generalizing i j with
  | nil => rfl
  | cons x xs ih =>
    cases i with
    | zero =>
      cases j with
      | zero => exact absurd rfl h
      | succ k => rfl
    | succ i' =>
      cases j with
      | zero => rfl
      | succ j' =>
        simp only [List.set_cons_succ, List.getD_cons_succ]
        exact ih i' j' (fun e => h (by omega))

theorem getD_set_self {α : Type} (r : List α) (i : ℕ) (v d : α) (h : i < r.length) :
    (r.set i v).getD i d = v := by
  induction r generalizing i with
  | nil => simp at h
  | cons x xs ih =>
    cases i with
    | zero => rfl
    | succ i' =>
      simp only [List.set_cons_succ, List.getD_cons_succ]
      exact ih i' (by simpa using h)

theorem map_getD_zipWith_push (rows : List (List Value)) (vs : List Value) (i : ℕ)
    (hlen : vs.length = rows.length) (hb : ∀ r ∈ rows, i < r.length) :
    (List.zipWith (fun r v => r ++ [v]) rows vs).map (fun r => r.getD i Value.null)
      = rows.map (fun r => r.getD i Value.null) := by
  induction rows generalizing vs with
  | nil => cases vs with
    | nil => rfl
    | cons v vs' => simp at hlen
  | cons r rs ih =>
    cases vs with
    | nil => simp at hlen
    | cons v vs' =>
      simp only [List.zipWith_cons_cons, List.map_cons]
      rw [getD_append_left r [v] i Value.null (hb r (List.mem_cons_self r rs)),
        ih vs' (by simp only [List.length_cons] at hlen; omega) (fun x hx => hb x (List.mem_cons_of_mem r hx))]

theorem map_getD_zipWith_push_self (rows : List (List Value)) (vs : List Value) (n : ℕ)
    (hlen : vs.length = rows.length) (hb : ∀ r ∈ rows, r.length = n) :
    (List.zipWith (fun r v => r ++ [v]) rows vs).map (fun r => r.getD n Value.null) = vs := by
  induction rows generalizing vs with
  | nil => cases vs with
    | nil => rfl
    | cons v vs' => simp at hlen
  | cons r rs ih =>
    cases vs with
    | nil => simp at hlen
    | cons v vs' =>
      simp only [List.zipWith_cons_cons, List.map_cons]
      have hv : (r ++ [v]).getD n Value.null = v := by
        rw [← hb r (List.mem_cons_self r rs)]
        exact getD_append_self r v Value.null
      rw [hv, ih vs' (by simp only [List.length_cons] at hlen; omega) (fun x hx => hb x (List.mem_cons_of_mem r hx))]

theorem map_getD_zipWith_set (rows : List (List Value)) (vs : List Value) (i j : ℕ)
    (hlen : vs.length = rows.length) (hne : j ≠ i) :
    (List.zipWith (fun r v => r.set i v) rows vs).map (fun r => r.getD j Value.null)
      = rows.map (fun r => r.getD j Value.null) := by
  induction rows generalizing vs with
  | nil => cases vs with
    | nil => rfl
    | cons v vs' => simp at hlen
  | cons r rs ih =>
    cases vs with
    | nil => simp at hlen
    | cons v vs' =>
      simp only [List.zipWith_cons_cons, List.map_cons]
      rw [getD_set_ne r i j v Value.null hne, ih vs' (by simp only [List.length_cons] at hlen; omega)]

theorem map_getD_zipWith_set_self (rows : List (List Value)) (vs : List Value) (i : ℕ)
    (hlen : vs.length = rows.length) (hb : ∀ r ∈ rows, i < r.length) :
    (List.zipWith (fun r v => r.set i v) rows vs).map (fun r => r.getD i Value.null) = vs := by
  induction rows generalizing vs with
  | nil => cases vs with
    | nil => rfl
    | cons v vs' => simp at hlen
  | cons r rs ih =>
    cases vs with
    | nil => simp at hlen
    | cons v vs' =>
      simp only [List.zipWith_cons_cons, List.map_cons]
      rw [getD_set_self r i v Value.null (hb r (List.mem_cons_self r rs)),
        ih vs' (by simp only [List.length_cons] at hlen; omega) (fun x hx => hb x (List.mem_cons_of_mem r hx))]

theorem zipOp_length {f : Value → Value → Option Value} :
    ∀ {as bs cs : List Value}, zipOp f as bs = some cs → cs.length = min as.length bs.length := by
  intro as
  induction as with
  | nil =>
    intro bs cs h
    simp only [zipOp] at h
    cases h
    simp
  | cons a as' ih =>
    intro bs cs h
    cases bs with
    | nil =>
      simp only [zipOp] at h
      cases h
      simp
    | cons b bs' =>
      simp only [zipOp, Option.bind_eq_bind] at h
      cases hf : f a b with
      | none => rw [hf] at h; simp at h
      | some cv =>
        rw [hf] at h
        cases hz : zipOp f as' bs' with
        | none => rw [hz] at h; simp at h
        | some cs' =>
          rw [hz] at h
          simp only [Option.some_bind, Option.pure_def, Option.some.injEq] at h
          subst h
          simp only [List.length_cons, ih hz, Nat.succ_min_succ]

theorem wf_iff {df : Frame} : df.wf = true ↔ ∀ r ∈ df.rows, r.length = df.cols.length := by
  simp [Frame.wf, List.all_eq_true]

theorem mem_zipWith_push {rows : List (List Value)} {vs : List Value} {x : List Value}
    (hx : x ∈ List.zipWith (fun r v => r ++ [v]) rows vs) :
    ∃ r ∈ rows, ∃ v, x = r ++ [v] := by
  induction rows generalizing vs with
  | nil => simp at hx
  | cons r rs ih =>
    cases vs with
    | nil => simp at hx
    | cons v vs' =>
      simp only [List.zipWith_cons_cons, List.mem_cons] at hx
      rcases hx with rfl | hx
      · exact ⟨r, List.mem_cons_self r rs, v, rfl⟩
      · rcases ih hx with ⟨r', hr', v', hv'⟩
        exact ⟨r', List.mem_cons_of_mem r hr', v', hv'⟩

theorem mem_zipWith_set {i : ℕ} {rows : List (List Value)} {vs : List Value} {x : List Value}
    (hx : x ∈ List.zipWith (fun r v => r.set i v) rows vs) :
    ∃ r ∈ rows, ∃ v, x = r.set i v := by
  induction rows generalizing vs with
  | nil => simp at hx
  | cons r rs ih =>
    cases vs with
    | nil => simp at hx
    | cons v vs' =>
      simp only [List.zipWith_cons_cons, List.mem_cons] at hx
      rcases hx with rfl | hx
      · exact ⟨r, List.mem_cons_self r rs, v, rfl⟩
      · rcases ih hx with ⟨r', hr', v', hv'⟩
        exact ⟨r', List.mem_cons_of_mem r hr', v', hv'⟩

theorem setCol_cols_new {df : Frame} {n : String} (vs : List Value) (h : n ∉ df.cols) :
    (df.setCol n vs).cols = df.cols ++ [n] := by
  unfold Frame.setCol
  rw [idxOf?_eq_none h]

theorem setCol_cols_old {df : Frame} {n : String} {i : ℕ} (vs : List Value)
    (h : idxOf? n df.cols = some i) : (df.setCol n vs).cols = df.cols := by
  unfold Frame.setCol
  rw [h]

theorem setCol_rows_new {df : Frame} {n : String} (vs : List Value) (h : n ∉ df.cols) :
    (df.setCol n vs).rows = List.zipWith (fun r v => r ++ [v]) df.rows vs := by
  unfold Frame.setCol
  rw [idxOf?_eq_none h]

theorem setCol_rows_old {df : Frame} {n : String} {i : ℕ} (vs : List Value)
    (h : idxOf? n df.cols = some i) :
    (df.setCol n vs).rows = List.zipWith (fun r v => r.set i v) df.rows vs := by
  unfold Frame.setCol
  rw [h]

theorem setCol_rows_length {df : Frame} {n : String} (vs : List Value)
    (hlen : vs.length = df.rows.length) : (df.setCol n vs).rows.length = df.rows.length := by
  unfold Frame.setCol
  cases h : idxOf? n df.cols with
  | some i => simp [List.length_zipWith, hlen]
  | none => simp [List.length_zipWith, hlen]

theorem setCol_wf_new {df : Frame} {n : String} (vs : List Value) (hn : n ∉ df.cols)
    (hwf : df.wf = true) : (df.setCol n vs).wf = true := by
  rw [wf_iff]
  intro r hr
  rw [setCol_cols_new vs hn]
  rw [setCol_rows_new vs hn] at hr
  rcases mem_zipWith_push hr with ⟨r0, hr0, v, rfl⟩
  simp only [List.length_append, List.length_cons, List.length_nil]
  rw [wf_iff.mp hwf r0 hr0]

theorem setCol_wf_old {df : Frame} {n : String} {i : ℕ} (vs : List Value)
    (hn : idxOf? n df.cols = some i) (hwf : df.wf = true) :
    (df.setCol n vs).wf = true := by
  rw [wf_iff]
  intro r hr
  rw [setCol_cols_old vs hn]
  rw [setCol_rows_old vs hn] at hr
  rcases mem_zipWith_set hr with ⟨r0, hr0, v, rfl⟩
  rw [List.length_set]
  exact wf_iff.mp hwf r0 hr0

theorem getCol_length {df : Frame} {c : String} {vs : List Value}
    (h : df.getCol c = some vs) : vs.length = df.rows.length := by
  rcases Option.map_eq_some'.mp h with ⟨i, _, rfl⟩
  exact List.length_map _ _

theorem getCol_exists {df : Frame} {c : String} (h : c ∈ df.cols) :
    ∃ vs, df.getCol c = some vs := by
  rcases idxOf?_exists h with ⟨i, hi, _⟩
  refine ⟨df.rows.map fun r => r.getD i Value.null, ?_⟩
  unfold Frame.getCol
  rw [hi, Option.map_some']

theorem getCol_setCol_new_other {df : Frame} {n c : String} (vs : List Value)
    (hn : n ∉ df.cols) (hc : c ∈ df.cols) (hwf : df.wf = true)
    (hlen : vs.length = df.rows.length) :
    (df.setCol n vs).getCol c = df.getCol c := by
  rcases idxOf?_exists hc with ⟨i, hi, hilt⟩
  unfold Frame.getCol
  rw [setCol_cols_new vs hn, setCol_rows_new vs hn, idxOf?_append_left [n] hc, hi,
    Option.map_some', Option.map_some']
  exact congrArg some (map_getD_zipWith_push df.rows vs i hlen
    (fun r hr => by rw [wf_iff.mp hwf r hr]; exact hilt))

theorem getCol_setCol_new_self {df : Frame} {n : String} (vs : List Value)
    (hn : n ∉ df.cols) (hwf : df.wf = true) (hlen : vs.length = df.rows.length) :
    (df.setCol n vs).getCol n = some vs := by
  unfold Frame.getCol
  rw [setCol_cols_new vs hn, setCol_rows_new vs hn, idxOf?_append_self hn, Option.map_some']
  exact congrArg some (map_getD_zipWith_push_self df.rows vs df.cols.length hlen (wf_iff.mp hwf))

theorem getCol_setCol_old_other {df : Frame} {n c : String} {i : ℕ} (vs : List Value)
    (hn : idxOf? n df.cols = some i) (hc : c ∈ df.cols) (hcn : c ≠ n)
    (hlen : vs.length = df.rows.length) :
    (df.setCol n vs).getCol c = df.getCol c := by
  rcases idxOf?_exists hc with ⟨j, hj, hjl⟩
  have hji : j ≠ i := by
    intro e
    subst e
    have h1 := idxOf?_get? hj
    have h2 := idxOf?_get? hn
    rw [h1] at h2
    exact hcn (Option.some.inj h2)
  unfold Frame.getCol
  rw [setCol_cols_old vs hn, setCol_rows_old vs hn, hj, Option.map_some', Option.map_some']
  exact congrArg some (map_getD_zipWith_set df.rows vs i j hlen hji)

theorem getCol_setCol_old_self {df : Frame} {n : String} {i : ℕ} (vs : List Value)
    (hn : idxOf? n df.cols = some i) (hwf : df.wf = true)
    (hlen : vs.length = df.rows.length) :
    (df.setCol n vs).getCol n = some vs := by
  unfold Frame.getCol
  rw [setCol_cols_old vs hn, setCol_rows_old vs hn, hn, Option.map_some']
  exact congrArg some (map_getD_zipWith_set_self df.rows vs i hlen
    (fun r hr => by rw [wf_iff.mp hwf r hr]; exact idxOf?_lt_length hn))

theorem rowNotNullOk_map (sch : List ColSpec) (f : ColSpec → Value) :
    rowNotNullOk sch (sch.map f)
      = sch.all fun s => !(s.notNull && decide (f s = Value.null)) := by
  induction sch with
  | nil => rfl
  | cons s ss ih =>
    simp only [rowNotNullOk, List.map_cons, List.zip_cons_cons, List.all_cons] at *
    rw [ih]

theorem rowNotNullOk_buildRow (sch : List ColSpec) (cols : List String) (idv : ℕ)
    (r : List Value) :
    rowNotNullOk sch (buildRow sch cols idv r)
      = sch.all fun s => !(s.notNull && decide (buildCell cols idv r s = Value.null)) :=
  rowNotNullOk_map sch (buildCell cols idv r)

theorem missingRequired_row_violation {df : Frame} {t : Table}
    (hm : missingRequired df t = true) (idv : ℕ) (r : List Value) :
    rowNotNullOk t.schema (buildRow t.schema df.cols idv r) = false := by
  rcases List.any_eq_true.mp hm with ⟨s, hs, hcond⟩
  simp only [Bool.and_eq_true, Bool.not_eq_true', decide_eq_false_iff_not] at hcond
  obtain ⟨⟨⟨hnn, hna⟩, hnd⟩, hnm⟩ := hcond
  have hc : buildCell df.cols idv r s = Value.null := by
    unfold buildCell
    rw [idxOf?_eq_none hnm]
    simp [hna, hnd]
  rw [rowNotNullOk_buildRow, Bool.eq_false_iff]
  intro hall
  have hps := List.all_eq_true.mp hall s hs
  rw [hnn, hc] at hps
  simp at hps

/-- C1: on the code, division by zero is only partially normalized: the
`fillna(0)` steps replace NaN (the `0 / 0` case) but not the infinities
that `x / 0` produces for a nonzero numerator `x`.  A campaign record
with `impressions = 0, clicks = 5` gets `ctr = +inf` (not `0`), and a
customer record with `total_spent = 500, total_orders = 0` gets
`avg_order_value = +inf` (not `0`); the nonzero-denominator path (here
`roi = (0 - 100) / 100 = -1`) does follow the documented rounded
formula. -/
theorem transform_division_by_zero_yields_infinity :
    ((transform_campaigns exCampaignFrame).toOption.bind fun df => df.getCol "ctr")
        = some [ Value.posInf ] ∧
    ((transform_campaigns exCampaignFrame).toOption.bind fun df => df.getCol "roi")
        = some [ Value.num (-1) ] ∧
    ((transform_customers exCustomerFrame).toOption.bind fun df => df.getCol "avg_order_value")
        = some [ Value.posInf ] := by
  refine ⟨by decide, by decide, by decide⟩

/-- C2: `setup_database` creates `dim_sales_targets` without any
`target_roi` column and `dim_customers` without any `avg_order_value`
column (while `fact_campaigns` does get its derived `ctr` column), so the
schema disagrees with the documented column set; consequently the
pipeline's own loads of the transformed record sets (which carry those
derived columns) fail with the unknown-column error. -/
theorem setup_database_omits_derived_columns :
    tableHasColumn (setup_database []) "dim_sales_targets" "target_roi" = false ∧
    tableHasColumn (setup_database []) "dim_customers" "avg_order_value" = false ∧
    tableHasColumn (setup_database []) "dim_sales_targets" "target_spend" = true ∧
    tableHasColumn (setup_database []) "dim_customers" "total_orders" = true ∧
    tableHasColumn (setup_database []) "fact_campaigns" "ctr" = true ∧
    ((transform_targets exTargetFrame).toOption.map
        (fun df => (load_to_database df freshTargetsTable).2)
      = some (some ETLError.noSuchColumn)) ∧
    ((transform_customers exCustomerFrame).toOption.map
        (fun df => (load_to_database df freshCustomersTable).2)
      = some (some ETLError.noSuchColumn)) := by
  refine ⟨by decide, by decide, by decide, by decide, by decide, by decide, by decide⟩

/-- C3 (counterexample): an empty record set that lacks the required
`tenant_id` column loads without error — `NOT NULL` violations are
per-row, so with zero rows nothing fails, contradicting the claim that
every record set missing a required column raises. -/
theorem load_missing_required_empty_set_no_error :
    "tenant_id" ∉ exEmptyFrame.cols ∧
    (freshCustomersTable.schema.any fun s =>
        s.notNull && !s.isAuto && !s.hasDefault && decide (s.name = "tenant_id")) = true ∧
    (load_to_database exEmptyFrame freshCustomersTable).2 = none := by
  refine ⟨by decide, by decide, by decide⟩

/-- C3 (amended): with zero records the pandas insert returns early, so
an empty record set loads without error whatever its columns; a
nonempty record set fails with the unknown-column error whenever it has
a column the target table lacks, and fails whenever it misses a
required (`NOT NULL`, non-automatic, no-default) column; on any failure
the target table is left unchanged (no rows appended). -/
theorem load_to_database_error_spec (df : Frame) (t : Table) :
    (df.rows = [] → (load_to_database df t).2 = none) ∧
    (df.rows ≠ [] → extraColumn df t = true →
      (load_to_database df t).2 = some ETLError.noSuchColumn) ∧
    (df.rows ≠ [] → missingRequired df t = true → (load_to_database df t).2 ≠ none) ∧
    ((load_to_database df t).2 ≠ none → (load_to_database df t).1 = t) := by
  refine ⟨?_, ?_, ?_, ?_⟩
  · intro hemp
    unfold load_to_database
    rw [if_pos hemp]
  · intro hr hx
    unfold load_to_database
    rw [if_neg hr, if_pos hx]
  · intro hr hm
    by_cases hx : extraColumn df t = true
    · unfold load_to_database
      rw [if_neg hr, if_pos hx]
      simp
    · unfold load_to_database
      rw [if_neg hr, if_neg hx]
      cases hrows : df.rows with
      | nil => exact absurd hrows hr
      | cons r rs =>
        rw [if_neg ?hcond]
        · simp
        case hcond =>
          simp only [buildRows, List.all_cons]
          rw [missingRequired_row_violation hm t.nextId r]
          simp
  · intro hne
    by_cases hemp : df.rows = []
    · exfalso
      apply hne
      unfold load_to_database
      rw [if_pos hemp]
    · by_cases hx : extraColumn df t = true
      · unfold load_to_database
        rw [if_neg hemp, if_pos hx]
      · unfold load_to_database at hne ⊢
        rw [if_neg hemp, if_neg hx] at hne ⊢
        by_cases hall :
            (buildRows t.schema df.cols t.nextId df.rows).all (rowNotNullOk t.schema) = true
        · rw [if_pos hall] at hne
          simp at hne
        · rw [if_neg hall]

/-- C3 witness: the amended loader contract evaluated at concrete record
sets: the empty set missing `tenant_id` loads without error, a nonempty
unknown-column load fails, a nonempty set missing `tenant_id` fails,
and the failed load leaves the table unchanged. -/
theorem load_to_database_error_spec_witness :
    (load_to_database exEmptyFrame freshCustomersTable).2 = none ∧
    (load_to_database exFrameExtra freshTargetsTable).2 = some ETLError.noSuchColumn ∧
    (load_to_database exFrameReq freshCustomersTable).2 ≠ none ∧
    (load_to_database exFrameReq freshCustomersTable).1 = freshCustomersTable := by
  refine ⟨(load_to_database_error_spec exEmptyFrame freshCustomersTable).1 (by decide),
    (load_to_database_error_spec exFrameExtra freshTargetsTable).2.1 (by decide) (by decide),
    (load_to_database_error_spec exFrameReq freshCustomersTable).2.2.1 (by decide) (by decide),
    (load_to_database_error_spec exFrameReq freshCustomersTable).2.2.2
      ((load_to_database_error_spec exFrameReq freshCustomersTable).2.2.1
        (by decide) (by decide))⟩

/-- C4 (counterexample): `transform_campaigns` is not pure in the claimed
sense — it assigns the derived columns on the caller's record set in
place, so after a successful call the argument no longer equals its
original value (it gained the `ctr`/`roi` columns). -/
theorem transform_campaigns_mutates_argument :
    ((transformCampaignsCall exCampaignFrame).toOption.map Prod.fst).isSome = true ∧
    (transformCampaignsCall exCampaignFrame).toOption.map Prod.fst ≠ some exCampaignFrame := by
  refine ⟨by decide, by decide⟩

/-- C8 (counterexample): a run in which the load of the sales-target
record set fails ends with the warehouse connection still open — the
`except` handler of `main()` only logs and re-raises, and
`close_connection()` is reached only at the end of the `try` block. -/
theorem main_failure_leaves_connection_open :
    mainRun (fun s => s = Stage.loadTargets) = ⟨false, false⟩ := by decide

/-- C8 (amended): the warehouse connection is closed at run end exactly
when the run succeeds; any aborting stage failure skips
`close_connection()`. -/
theorem connection_closed_iff_run_succeeds (fails : Stage → Bool) :
    (mainRun fails).connClosed = (mainRun fails).succeeded := by
  have h : ∀ l : List Stage, (runStages fails l).connClosed = (runStages fails l).succeeded := by
    intro l
    induction l with
    | nil => rfl
    | cons s rest ih =>
      by_cases hf : (fails s && !(s = Stage.extractApi : Bool)) = true
      · simp [runStages, hf]
      · simp only [runStages]
        rw [if_neg hf]
        exact ih
  exact h mainStages

/-- C9: the Report Engine leaves the warehouse unmodified for every query
name, and any name outside the two known queries fails with the
unknown-query error. -/
theorem execute_dashboard_query_spec (q : String) (w : Warehouse) :
    (execute_dashboard_query q w).2 = w ∧
    (q ≠ "campaign_summary" → q ≠ "daily_performance" →
      (execute_dashboard_query q w).1 = Except.error ETLError.unknownQueryType) := by
  constructor
  · unfold execute_dashboard_query
    split_ifs <;> rfl
  · intro h1 h2
    unfold execute_dashboard_query
    rw [if_neg h1, if_neg h2]

/-- C9 witness: the unknown name `nonexistent_report` fails with the
query error and leaves a concrete warehouse untouched. -/
theorem execute_dashboard_query_spec_witness :
    (execute_dashboard_query "nonexistent_report" exW9).1
        = Except.error ETLError.unknownQueryType ∧
    (execute_dashboard_query "nonexistent_report" exW9).2 = exW9 :=
  ⟨(execute_dashboard_query_spec "nonexistent_report" exW9).2 (by decide) (by decide),
    (execute_dashboard_query_spec "nonexistent_report" exW9).1⟩

/-- C10: `setup_database` is idempotent: on a store that already has the
three tables, every `CREATE TABLE IF NOT EXISTS` is a no-op, so the
whole store — schemas and all stored rows — is returned unchanged (no
truncation on startup). -/
theorem setup_database_idempotent (db : Database)
    (h1 : hasTable db "fact_campaigns" = true)
    (h2 : hasTable db "dim_sales_targets" = true)
    (h3 : hasTable db "dim_customers" = true) :
    setup_database db = db := by
  unfold hasTable at h1 h2 h3
  unfold setup_database createTableIfNotExists
  simp only [h1, h2, h3, eq_self_iff_true, if_true]

/-- C10 witness: running `setup_database` a second time on the store it
just created changes nothing. -/
theorem setup_database_idempotent_witness :
    setup_database (setup_database []) = setup_database [] :=
  setup_database_idempotent (setup_database []) (by decide) (by decide) (by decide)

theorem buildRows_length (sch : List ColSpec) (cols : List String) :
    ∀ (startId : ℕ) (rows : List (List Value)),
      (buildRows sch cols startId rows).length = rows.length := by
  intro startId rows
  induction rows generalizing startId with
  | nil => rfl
  | cons r rs ih => simp only [buildRows, List.length_cons, ih]

theorem buildCell_null_id_irrel (cols : List String) (i j : ℕ) (r : List Value) (s : ColSpec) :
    (buildCell cols i r s = Value.null) ↔ (buildCell cols j r s = Value.null) := by
  unfold buildCell
  cases h : idxOf? s.name cols with
  | some k => exact Iff.rfl
  | none =>
    by_cases ha : s.isAuto = true
    · simp [ha]
    · by_cases hd : s.hasDefault = true
      · simp [ha, hd]
      · simp [ha, hd]

theorem rowNotNullOk_buildRow_id_irrel (sch : List ColSpec) (cols : List String)
    (i j : ℕ) (r : List Value) :
    rowNotNullOk sch (buildRow sch cols i r) = rowNotNullOk sch (buildRow sch cols j r) := by
  rw [rowNotNullOk_buildRow, rowNotNullOk_buildRow]
  have hfun : (fun s => !(s.notNull && decide (buildCell cols i r s = Value.null)))
      = (fun s => !(s.notNull && decide (buildCell cols j r s = Value.null))) := by
    funext s
    rw [decide_eq_decide.mpr (buildCell_null_id_irrel cols i j r s)]
  rw [hfun]

theorem buildRows_allOk_id_irrel (sch : List ColSpec) (cols : List String)
    (i j : ℕ) (rows : List (List Value)) :
    (buildRows sch cols i rows).all (rowNotNullOk sch)
      = (buildRows sch cols j rows).all (rowNotNullOk sch) := by
  induction rows generalizing i j with
  | nil => rfl
  | cons r rs ih =>
    simp only [buildRows, List.all_cons]
    rw [rowNotNullOk_buildRow_id_irrel sch cols i j r, ih (i + 1) (j + 1)]

theorem load_success_eq (df : Frame) (t : Table) (hne : df.rows ≠ [])
    (hx : extraColumn df t = false)
    (hall : (buildRows t.schema df.cols t.nextId df.rows).all (rowNotNullOk t.schema) = true) :
    load_to_database df t = (⟨t.schema, t.nextId + df.rows.length,
      t.rows ++ buildRows t.schema df.cols t.nextId df.rows⟩, none) := by
  unfold load_to_database
  rw [if_neg hne, if_neg (by simp [hx]), if_pos hall]

/-- C5: a successful load appends exactly the record-set's N rows at the
end of the table (existing rows are preserved verbatim, so nothing is
updated or deleted), row counts never decrease across any load, and
loading the same record set twice into an initially empty table leaves
exactly 2N rows — no deduplication. -/
theorem load_appends_exactly_n (df : Frame) (t : Table) :
    ((load_to_database df t).2 = none →
      (load_to_database df t).1.rows.length = t.rows.length + df.rows.length ∧
      ∃ l, (load_to_database df t).1.rows = t.rows ++ l ∧ l.length = df.rows.length) ∧
    t.rows.length ≤ (load_to_database df t).1.rows.length ∧
    (t.rows = [] → (load_to_database df t).2 = none →
      (load_to_database df ((load_to_database df t).1)).2 = none ∧
      (load_to_database df ((load_to_database df t).1)).1.rows.length
        = 2 * df.rows.length) := by
  by_cases hemp : df.rows = []
  · have hres : load_to_database df t = (t, none) := by
      unfold load_to_database
      rw [if_pos hemp]
    refine ⟨?_, ?_, ?_⟩
    · intro _
      rw [hres]
      exact ⟨by simp [hemp], ⟨[], by simp, by simp [hemp]⟩⟩
    · rw [hres]
    · intro hte _
      have h1 : (load_to_database df t).1 = t := by rw [hres]
      rw [h1, hres]
      exact ⟨rfl, by simp [hte, hemp]⟩
  · by_cases hx : extraColumn df t = true
    · have hres : load_to_database df t = (t, some ETLError.noSuchColumn) := by
        unfold load_to_database
        rw [if_neg hemp, if_pos hx]
      refine ⟨?_, ?_, ?_⟩
      · intro h2
        rw [hres] at h2
        simp at h2
      · rw [hres]
      · intro _ h2
        rw [hres] at h2
        simp at h2
    · by_cases hall :
          (buildRows t.schema df.cols t.nextId df.rows).all (rowNotNullOk t.schema) = true
      · have hxf : extraColumn df t = false := Bool.eq_false_iff.mpr hx
        have hres := load_success_eq df t hemp hxf hall
        refine ⟨?_, ?_, ?_⟩
        · intro _
          rw [hres]
          exact ⟨by simp [List.length_append, buildRows_length],
            ⟨_, rfl, buildRows_length t.schema df.cols t.nextId df.rows⟩⟩
        · rw [hres]
          simp only [List.length_append]
          exact Nat.le_add_right _ _
        · intro hempty _
          have hall2 : (buildRows t.schema df.cols (t.nextId + df.rows.length) df.rows).all
              (rowNotNullOk t.schema) = true := by
            rw [buildRows_allOk_id_irrel t.schema df.cols
              (t.nextId + df.rows.length) t.nextId df.rows]
            exact hall
          have hres2 := load_success_eq df
            ⟨t.schema, t.nextId + df.rows.length,
              t.rows ++ buildRows t.schema df.cols t.nextId df.rows⟩ hemp hxf hall2
          rw [hres, hres2]
          refine ⟨rfl, ?_⟩
          simp only [List.length_append, buildRows_length, hempty, List.length_nil]
          omega
      · have hres : load_to_database df t = (t, some ETLError.notNullViolation) := by
          unfold load_to_database
          rw [if_neg hemp, if_neg hx, if_neg hall]
        refine ⟨?_, ?_, ?_⟩
        · intro h2
          rw [hres] at h2
          simp at h2
        · rw [hres]
        · intro _ h2
          rw [hres] at h2
          simp at h2

/-- C5 witness: loading the one-record target frame into a fresh
sales-target table appends exactly one row, and loading it twice
starting from the empty table leaves two rows. -/
theorem load_appends_exactly_n_witness :
    (load_to_database exTargetFrame freshTargetsTable).2 = none ∧
    (load_to_database exTargetFrame freshTargetsTable).1.rows.length
      = freshTargetsTable.rows.length + exTargetFrame.rows.length ∧
    (load_to_database exTargetFrame
        ((load_to_database exTargetFrame freshTargetsTable).1)).1.rows.length
      = 2 * exTargetFrame.rows.length := by
  refine ⟨by decide, ?_, ?_⟩
  · exact ((load_appends_exactly_n exTargetFrame freshTargetsTable).1 (by decide)).1
  · exact ((load_appends_exactly_n exTargetFrame freshTargetsTable).2.2
      (by decide) (by decide)).2

theorem sum_ge_mul_length {l : List ℚ} {b : ℚ} (h : ∀ x ∈ l, b ≤ x) :
    b * l.length ≤ l.sum := by
  induction l with
  | nil => simp
  | cons x xs ih =>
    have hx := h x (List.mem_cons_self x xs)
    have hxs := ih (fun y hy => h y (List.mem_cons_of_mem x hy))
    simp only [List.sum_cons, List.length_cons]
    push_cast
    nlinarith [hxs, hx]

theorem sum_le_mul_length {l : List ℚ} {b : ℚ} (h : ∀ x ∈ l, x ≤ b) :
    l.sum ≤ b * l.length := by
  induction l with
  | nil => simp
  | cons x xs ih =>
    have hx := h x (List.mem_cons_self x xs)
    have hxs := ih (fun y hy => h y (List.mem_cons_of_mem x hy))
    simp only [List.sum_cons, List.length_cons]
    push_cast
    nlinarith [hxs, hx]

theorem avg_lower {l : List ℚ} (hne : l ≠ []) {b : ℚ} (h : ∀ x ∈ l, b ≤ x) :
    b ≤ l.sum / l.length := by
  have hlen : (0:ℚ) < l.length := by
    have hp : 0 < l.length := List.length_pos.mpr hne
    exact_mod_cast hp
  rw [le_div_iff₀ hlen]
  exact sum_ge_mul_length h

theorem avg_upper {l : List ℚ} (hne : l ≠ []) {b : ℚ} (h : ∀ x ∈ l, x ≤ b) :
    l.sum / l.length ≤ b := by
  have hlen : (0:ℚ) < l.length := by
    have hp : 0 < l.length := List.length_pos.mpr hne
    exact_mod_cast hp
  rw [div_le_iff₀ hlen]
  exact sum_le_mul_length h

theorem roundQ_abs_le (d : ℕ) (q : ℚ) : |roundQ d q - q| ≤ 1 / (2 * 10 ^ d) := by
  have h10 : (0:ℚ) < 10 ^ d := by positivity
  have hx : roundQ d q - q = (((round (q * 10 ^ d) : ℤ) : ℚ) - q * 10 ^ d) / 10 ^ d := by
    unfold roundQ
    field_simp
    ring
  have h := abs_sub_round (q * 10 ^ d)
  rw [abs_sub_comm] at h
  rw [hx, abs_div, abs_of_pos h10, div_le_div_iff₀ h10 (by positivity : (0:ℚ) < 2 * 10 ^ d)]
  have h2 := mul_le_mul_of_nonneg_right h (by positivity : (0:ℚ) ≤ 2 * 10 ^ d)
  calc |((round (q * 10 ^ d) : ℤ) : ℚ) - q * 10 ^ d| * (2 * 10 ^ d)
      ≤ 1 / 2 * (2 * 10 ^ d) := h2
    _ = 1 * 10 ^ d := by ring

theorem roundQ_ge (d : ℕ) (q : ℚ) : q - 1 / (2 * 10 ^ d) ≤ roundQ d q := by
  have h := abs_le.mp (roundQ_abs_le d q)
  linarith [h.1]

theorem roundQ_le (d : ℕ) (q : ℚ) : roundQ d q ≤ q + 1 / (2 * 10 ^ d) := by
  have h := abs_le.mp (roundQ_abs_le d q)
  linarith [h.2]

theorem round_avg_lower {g : List CampaignRow} (f : CampaignRow → ℚ) (d : ℕ) (hne : g ≠ [])
    {b : ℚ} (hb : ∀ x ∈ g, b ≤ f x) :
    b - 1 / (2 * 10 ^ d) ≤ roundQ d ((g.map f).sum / (g.length : ℚ)) := by
  have hlne : g.map f ≠ [] := fun he => hne (List.map_eq_nil_iff.mp he)
  have havg : b ≤ (g.map f).sum / ((g.map f).length : ℚ) :=
    avg_lower hlne (fun y hy => by
      rcases List.mem_map.mp hy with ⟨x, hx, rfl⟩
      exact hb x hx)
  rw [List.length_map] at havg
  have hrq := roundQ_ge d ((g.map f).sum / (g.length : ℚ))
  linarith [havg, hrq]

theorem round_avg_upper {g : List CampaignRow} (f : CampaignRow → ℚ) (d : ℕ) (hne : g ≠ [])
    {b : ℚ} (hb : ∀ x ∈ g, f x ≤ b) :
    roundQ d ((g.map f).sum / (g.length : ℚ)) ≤ b + 1 / (2 * 10 ^ d) := by
  have hlne : g.map f ≠ [] := fun he => hne (List.map_eq_nil_iff.mp he)
  have havg : (g.map f).sum / ((g.map f).length : ℚ) ≤ b :=
    avg_upper hlne (fun y hy => by
      rcases List.mem_map.mp hy with ⟨x, hx, rfl⟩
      exact hb x hx)
  rw [List.length_map] at havg
  have hrq := roundQ_le d ((g.map f).sum / (g.length : ℚ))
  linarith [havg, hrq]

theorem summarizeTenant_tenant_id (rows : List CampaignRow) (t : String) :
    (summarizeTenant rows t).tenant_id = t := rfl

theorem tenantGroup_ne_nil {rows : List CampaignRow} {t : String}
    (h : t ∈ (rows.map CampaignRow.tenant_id).dedup) : tenantGroup rows t ≠ [] := by
  have hmem : t ∈ rows.map CampaignRow.tenant_id := List.mem_dedup.mp h
  rcases List.mem_map.mp hmem with ⟨x, hx, hxt⟩
  have hxg : x ∈ tenantGroup rows t := List.mem_filter.mpr ⟨hx, by simp [hxt]⟩
  exact List.ne_nil_of_mem hxg

/-- C6 (amended): for every warehouse state, the `campaign_summary` rows
are ordered by `tenant_id` ascending; each result row's campaign count
and five totals equal the independently computed per-tenant sums; and
each rounded average lies within the per-tenant `[min, max]` widened by
half of the rounding step (`0.00005` for the 4-decimal `ctr` average,
`0.005` for the 2-decimal `roi` average) — the unrounded averages lie in
`[min, max]` exactly, and the final `ROUND` can move them by at most half
an ulp. -/
theorem campaign_summary_spec (rows : List CampaignRow) :
    List.Sorted (fun a b : String => a ≤ b)
      ((campaign_summary rows).map SummaryRow.tenant_id) ∧
    ∀ r ∈ campaign_summary rows,
      tenantGroup rows r.tenant_id ≠ [] ∧
      r.total_campaigns = (tenantGroup rows r.tenant_id).length ∧
      r.total_impressions = ((tenantGroup rows r.tenant_id).map CampaignRow.impressions).sum ∧
      r.total_clicks = ((tenantGroup rows r.tenant_id).map CampaignRow.clicks).sum ∧
      r.total_conversions = ((tenantGroup rows r.tenant_id).map CampaignRow.conversions).sum ∧
      r.total_spend = ((tenantGroup rows r.tenant_id).map CampaignRow.spend).sum ∧
      r.total_revenue = ((tenantGroup rows r.tenant_id).map CampaignRow.revenue).sum ∧
      (∀ b, (∀ x ∈ tenantGroup rows r.tenant_id, b ≤ x.ctr) → b - 1 / 20000 ≤ r.avg_ctr) ∧
      (∀ b, (∀ x ∈ tenantGroup rows r.tenant_id, x.ctr ≤ b) → r.avg_ctr ≤ b + 1 / 20000) ∧
      (∀ b, (∀ x ∈ tenantGroup rows r.tenant_id, b ≤ x.roi) → b - 1 / 200 ≤ r.avg_roi) ∧
      (∀ b, (∀ x ∈ tenantGroup rows r.tenant_id, x.roi ≤ b) → r.avg_roi ≤ b + 1 / 200) := by
  constructor
  · have hmm : (campaign_summary rows).map SummaryRow.tenant_id
        = List.insertionSort (fun a b : String => a ≤ b)
            (rows.map CampaignRow.tenant_id).dedup := by
      unfold campaign_summary
      rw [List.map_map]
      have hco : SummaryRow.tenant_id ∘ summarizeTenant rows = id := by
        funext t
        rfl
      rw [hco, List.map_id]
    rw [hmm]
    exact List.sorted_insertionSort _ _
  · intro r hr
    unfold campaign_summary at hr
    rcases List.mem_map.mp hr with ⟨t, ht, rfl⟩
    have htd : t ∈ (rows.map CampaignRow.tenant_id).dedup :=
      (List.perm_insertionSort _ _).mem_iff.mp ht
    have hne := tenantGroup_ne_nil htd
    rw [summarizeTenant_tenant_id]
    have hnum4 : (1 : ℚ) / (2 * 10 ^ 4) = 1 / 20000 := by norm_num
    have hnum2 : (1 : ℚ) / (2 * 10 ^ 2) = 1 / 200 := by norm_num
    refine ⟨hne, rfl, rfl, rfl, rfl, rfl, rfl, ?_, ?_, ?_, ?_⟩
    · intro b hb
      have h := round_avg_lower CampaignRow.ctr 4 hne hb
      rw [hnum4] at h
      exact h
    · intro b hb
      have h := round_avg_upper CampaignRow.ctr 4 hne hb
      rw [hnum4] at h
      exact h
    · intro b hb
      have h := round_avg_lower CampaignRow.roi 2 hne hb
      rw [hnum2] at h
      exact h
    · intro b hb
      have h := round_avg_upper CampaignRow.roi 2 hne hb
      rw [hnum2] at h
      exact h

/-- C6 (counterexample): a warehouse whose single committed campaign row
has `ctr = 0.00004` yields a summary whose rounded `avg_ctr` is `0`,
strictly below the minimum (= maximum) per-record `ctr` of that tenant,
so the rounded average does not lie within `[min, max]`. -/
theorem campaign_summary_avg_outside_range :
    (campaign_summary [ exRowTiny ]).map SummaryRow.avg_ctr = [ 0 ] ∧
    [ exRowTiny ].map CampaignRow.ctr = [ 1/25000 ] ∧
    ¬ ((1/25000 : ℚ) ≤ (0 : ℚ)) := by
  refine ⟨by decide, by decide, by decide⟩

/-- C6 witness: the amended bounds evaluated at a concrete one-row
warehouse: its summary row is produced, and its `avg_ctr` obeys the
widened lower bound with `b = 1/2`. -/
theorem campaign_summary_spec_witness :
    exSummary6 ∈ campaign_summary exW6 ∧
    (1/2 : ℚ) - 1 / 20000 ≤ exSummary6.avg_ctr := by
  have hm : exSummary6 ∈ campaign_summary exW6 := by decide
  refine ⟨hm, ?_⟩
  exact ((campaign_summary_spec exW6).2 exSummary6 hm).2.2.2.2.2.2.2.1 (1/2)
    (by decide)

theorem summarizeDay_key (rows : List CampaignRow) (k : String × String) :
    dailyKey (summarizeDay rows k) = k := by
  cases k
  rfl

/-- C7: for every warehouse state, `daily_performance` has at most 50
result rows, equals the first 50 groups of the full
`(tenant_id, date)`-ordered grouping, is sorted by `(tenant_id, date)`
ascending, and each row's summed conversions, revenue and spend equal the
independently computed per-group sums. -/
theorem daily_performance_spec (rows : List CampaignRow) :
    (daily_performance rows).length ≤ 50 ∧
    daily_performance rows = (daily_performance_all rows).take 50 ∧
    List.Sorted pairLe ((daily_performance rows).map dailyKey) ∧
    ∀ r ∈ daily_performance rows,
      r.daily_conversions = ((dayGroup rows (dailyKey r)).map CampaignRow.conversions).sum ∧
      r.daily_revenue = ((dayGroup rows (dailyKey r)).map CampaignRow.revenue).sum ∧
      r.daily_spend = ((dayGroup rows (dailyKey r)).map CampaignRow.spend).sum := by
  refine ⟨?_, rfl, ?_, ?_⟩
  · unfold daily_performance
    exact List.length_take_le 50 _
  · have hall : List.Sorted pairLe ((daily_performance_all rows).map dailyKey) := by
      unfold daily_performance_all
      rw [List.map_map]
      have hco : dailyKey ∘ summarizeDay rows = id := by
        funext k
        exact summarizeDay_key rows k
      rw [hco, List.map_id]
      exact List.sorted_insertionSort _ _
    unfold daily_performance
    rw [List.map_take]
    exact List.Pairwise.sublist (List.take_sublist _ _) hall
  · intro r hr
    unfold daily_performance at hr
    have hr2 : r ∈ daily_performance_all rows := List.mem_of_mem_take hr
    unfold daily_performance_all at hr2
    rcases List.mem_map.mp hr2 with ⟨k, hk, rfl⟩
    rw [summarizeDay_key]
    exact ⟨rfl, rfl, rfl⟩

/-- C7 witness: the daily-performance contract evaluated at a concrete
one-row warehouse: its group row is returned and its summed revenue
matches the independent per-group sum. -/
theorem daily_performance_spec_witness :
    exDaily7 ∈ daily_performance exW7 ∧
    exDaily7.daily_revenue = ((dayGroup exW7 (dailyKey exDaily7)).map CampaignRow.revenue).sum := by
  have hm : exDaily7 ∈ daily_performance exW7 := by decide
  exact ⟨hm, ((daily_performance_spec exW7).2.2.2 exDaily7 hm).2.1⟩

theorem transform_targets_shape (df df' : Frame) (hwf : df.wf = true)
    (hn : "target_roi" ∉ df.cols) (heq : transform_targets df = Except.ok df') :
    df'.cols = df.cols ++ [ "target_roi" ] ∧
    df'.rows.length = df.rows.length ∧
    (∀ c ∈ df.cols, df'.getCol c = df.getCol c) := by
  cases hrev : df.getCol "target_revenue" with
  | none =>
    exfalso
    unfold transform_targets at heq
    simp only [hrev] at heq
    exact Except.noConfusion heq
  | some rev =>
  cases hsp : df.getCol "target_spend" with
  | none =>
    exfalso
    unfold transform_targets at heq
    simp only [hrev, hsp] at heq
    exact Except.noConfusion heq
  | some sp =>
  cases hz : zipOp Value.divV rev sp with
  | none =>
    exfalso
    unfold transform_targets at heq
    simp only [hrev, hsp, hz] at heq
    exact Except.noConfusion heq
  | some t0 =>
  have hl0 : t0.length = df.rows.length := by
    rw [zipOp_length hz, getCol_length hrev, getCol_length hsp]
    exact Nat.min_self _
  have hlv1 : (t0.map (Value.roundV 2)).length = df.rows.length := by
    rw [List.length_map]
    exact hl0
  have hcols1 : (df.setCol "target_roi" (t0.map (Value.roundV 2))).cols
      = df.cols ++ [ "target_roi" ] := setCol_cols_new _ hn
  have hrows1 : (df.setCol "target_roi" (t0.map (Value.roundV 2))).rows.length
      = df.rows.length := setCol_rows_length _ hlv1
  have hwf1 : (df.setCol "target_roi" (t0.map (Value.roundV 2))).wf = true :=
    setCol_wf_new _ hn hwf
  have hself1 : (df.setCol "target_roi" (t0.map (Value.roundV 2))).getCol "target_roi"
      = some (t0.map (Value.roundV 2)) := getCol_setCol_new_self _ hn hwf hlv1
  have hidx1 : idxOf? "target_roi" (df.setCol "target_roi" (t0.map (Value.roundV 2))).cols
      = some df.cols.length := by
    rw [hcols1]
    exact idxOf?_append_self hn
  have hfinal : transform_targets df
      = Except.ok ((df.setCol "target_roi" (t0.map (Value.roundV 2))).setCol "target_roi"
          ((t0.map (Value.roundV 2)).map (Value.fillnaV (Value.num 0)))) := by
    unfold transform_targets
    simp only [hrev, hsp, hz, hself1]
  rw [hfinal] at heq
  have hdf : df' = (df.setCol "target_roi" (t0.map (Value.roundV 2))).setCol "target_roi"
      ((t0.map (Value.roundV 2)).map (Value.fillnaV (Value.num 0))) :=
    (Except.ok.inj heq).symm
  subst hdf
  have hlf : ((t0.map (Value.roundV 2)).map (Value.fillnaV (Value.num 0))).length
      = (df.setCol "target_roi" (t0.map (Value.roundV 2))).rows.length := by
    rw [List.length_map, hrows1]
    exact hlv1
  refine ⟨?_, ?_, ?_⟩
  · rw [setCol_cols_old _ hidx1, hcols1]
  · rw [setCol_rows_length _ hlf, hrows1]
  · intro c hc
    have hcn : c ≠ "target_roi" := fun e => hn (e ▸ hc)
    have hc1 : c ∈ (df.setCol "target_roi" (t0.map (Value.roundV 2))).cols := by
      rw [hcols1]
      exact List.mem_append_left _ hc
    rw [getCol_setCol_old_other _ hidx1 hc1 hcn hlf,
      getCol_setCol_new_other _ hn hc hwf hlv1]

theorem transform_customers_shape (df df' : Frame) (hwf : df.wf = true)
    (hn : "avg_order_value" ∉ df.cols) (heq : transform_customers df = Except.ok df') :
    df'.cols = df.cols ++ [ "avg_order_value" ] ∧
    df'.rows.length = df.rows.length ∧
    (∀ c ∈ df.cols, df'.getCol c = df.getCol c) := by
  cases hts : df.getCol "total_spent" with
  | none =>
    exfalso
    unfold transform_customers at heq
    simp only [hts] at heq
    exact Except.noConfusion heq
  | some ts =>
  cases hto : df.getCol "total_orders" with
  | none =>
    exfalso
    unfold transform_customers at heq
    simp only [hts, hto] at heq
    exact Except.noConfusion heq
  | some tor =>
  cases hz : zipOp Value.divV ts tor with
  | none =>
    exfalso
    unfold transform_customers at heq
    simp only [hts, hto, hz] at heq
    exact Except.noConfusion heq
  | some a0 =>
  have hl0 : a0.length = df.rows.length := by
    rw [zipOp_length hz, getCol_length hts, getCol_length hto]
    exact Nat.min_self _
  have hlv1 : (a0.map (Value.roundV 2)).length = df.rows.length := by
    rw [List.length_map]
    exact hl0
  have hcols1 : (df.setCol "avg_order_value" (a0.map (Value.roundV 2))).cols
      = df.cols ++ [ "avg_order_value" ] := setCol_cols_new _ hn
  have hrows1 : (df.setCol "avg_order_value" (a0.map (Value.roundV 2))).rows.length
      = df.rows.length := setCol_rows_length _ hlv1
  have hself1 : (df.setCol "avg_order_value" (a0.map (Value.roundV 2))).getCol "avg_order_value"
      = some (a0.map (Value.roundV 2)) := getCol_setCol_new_self _ hn hwf hlv1
  have hidx1 : idxOf? "avg_order_value"
      (df.setCol "avg_order_value" (a0.map (Value.roundV 2))).cols = some df.cols.length := by
    rw [hcols1]
    exact idxOf?_append_self hn
  have hfinal : transform_customers df
      = Except.ok ((df.setCol "avg_order_value" (a0.map (Value.roundV 2))).setCol
          "avg_order_value" ((a0.map (Value.roundV 2)).map (Value.fillnaV (Value.num 0)))) := by
    unfold transform_customers
    simp only [hts, hto, hz, hself1]
  rw [hfinal] at heq
  have hdf : df' = (df.setCol "avg_order_value" (a0.map (Value.roundV 2))).setCol
      "avg_order_value" ((a0.map (Value.roundV 2)).map (Value.fillnaV (Value.num 0))) :=
    (Except.ok.inj heq).symm
  subst hdf
  have hlf : ((a0.map (Value.roundV 2)).map (Value.fillnaV (Value.num 0))).length
      = (df.setCol "avg_order_value" (a0.map (Value.roundV 2))).rows.length := by
    rw [List.length_map, hrows1]
    exact hlv1
  refine ⟨?_, ?_, ?_⟩
  · rw [setCol_cols_old _ hidx1, hcols1]
  · rw [setCol_rows_length _ hlf, hrows1]
  · intro c hc
    have hcn : c ≠ "avg_order_value" := fun e => hn (e ▸ hc)
    have hc1 : c ∈ (df.setCol "avg_order_value" (a0.map (Value.roundV 2))).cols := by
      rw [hcols1]
      exact List.mem_append_left _ hc
    rw [getCol_setCol_old_other _ hidx1 hc1 hcn hlf,
      getCol_setCol_new_other _ hn hc hwf hlv1]

theorem transform_campaigns_shape (df df' : Frame) (hwf : df.wf = true)
    (hc : "ctr" ∉ df.cols) (hr : "roi" ∉ df.cols)
    (heq : transform_campaigns df = Except.ok df') :
    df'.cols = df.cols ++ [ "ctr", "roi" ] ∧
    df'.rows.length = df.rows.length ∧
    (∀ c ∈ df.cols, df'.getCol c = df.getCol c) := by
  cases hcl : df.getCol "clicks" with
  | none =>
    exfalso
    unfold transform_campaigns at heq
    simp only [hcl] at heq
    exact Except.noConfusion heq
  | some cl =>
  cases him : df.getCol "impressions" with
  | none =>
    exfalso
    unfold transform_campaigns at heq
    simp only [hcl, him] at heq
    exact Except.noConfusion heq
  | some im =>
  cases hz1 : zipOp Value.divV cl im with
  | none =>
    exfalso
    unfold transform_campaigns at heq
    simp only [hcl, him, hz1] at heq
    exact Except.noConfusion heq
  | some ctr0 =>
  have hl0 : ctr0.length = df.rows.length := by
    rw [zipOp_length hz1, getCol_length hcl, getCol_length him]
    exact Nat.min_self _
  have hlv1 : (ctr0.map (Value.roundV 4)).length = df.rows.length := by
    rw [List.length_map]
    exact hl0
  have hcols1 : (df.setCol "ctr" (ctr0.map (Value.roundV 4))).cols = df.cols ++ [ "ctr" ] :=
    setCol_cols_new _ hc
  have hrows1 : (df.setCol "ctr" (ctr0.map (Value.roundV 4))).rows.length = df.rows.length :=
    setCol_rows_length _ hlv1
  have hwf1 : (df.setCol "ctr" (ctr0.map (Value.roundV 4))).wf = true :=
    setCol_wf_new _ hc hwf
  cases hrev : (df.setCol "ctr" (ctr0.map (Value.roundV 4))).getCol "revenue" with
  | none =>
    exfalso
    unfold transform_campaigns at heq
    simp only [hcl, him, hz1, hrev] at heq
    exact Except.noConfusion heq
  | some rev =>
  cases hsp : (df.setCol "ctr" (ctr0.map (Value.roundV 4))).getCol "spend" with
  | none =>
    exfalso
    unfold transform_campaigns at heq
    simp only [hcl, him, hz1, hrev, hsp] at heq
    exact Except.noConfusion heq
  | some sp =>
  cases hz2 : zipOp Value.subV rev sp with
  | none =>
    exfalso
    unfold transform_campaigns at heq
    simp only [hcl, him, hz1, hrev, hsp, hz2] at heq
    exact Except.noConfusion heq
  | some diff =>
  cases hz3 : zipOp Value.divV diff sp with
  | none =>
    exfalso
    unfold transform_campaigns at heq
    simp only [hcl, him, hz1, hrev, hsp, hz2, hz3] at heq
    exact Except.noConfusion heq
  | some roi0 =>
  have hlsp : sp.length = df.rows.length := by
    rw [getCol_length hsp, hrows1]
  have hlrev : rev.length = df.rows.length := by
    rw [getCol_length hrev, hrows1]
  have hld : diff.length = df.rows.length := by
    rw [zipOp_length hz2, hlrev, hlsp]
    exact Nat.min_self _
  have hl3 : roi0.length = df.rows.length := by
    rw [zipOp_length hz3, hld, hlsp]
    exact Nat.min_self _
  have hlv2 : (roi0.map (Value.roundV 2)).length
      = (df.setCol "ctr" (ctr0.map (Value.roundV 4))).rows.length := by
    rw [List.length_map, hrows1]
    exact hl3
  have hroi1 : "roi" ∉ (df.setCol "ctr" (ctr0.map (Value.roundV 4))).cols := by
    rw [hcols1]
    intro hmem
    rcases List.mem_append.mp hmem with h1 | h1
    · exact hr h1
    · exact absurd (List.mem_singleton.mp h1) (by decide)
  have hctr1mem : "ctr" ∈ (df.setCol "ctr" (ctr0.map (Value.roundV 4))).cols := by
    rw [hcols1]
    exact List.mem_append_right _ (List.mem_singleton_self _)
  have hcols2 : ((df.setCol "ctr" (ctr0.map (Value.roundV 4))).setCol "roi"
        (roi0.map (Value.roundV 2))).cols
      = (df.setCol "ctr" (ctr0.map (Value.roundV 4))).cols ++ [ "roi" ] :=
    setCol_cols_new _ hroi1
  have hrows2 : ((df.setCol "ctr" (ctr0.map (Value.roundV 4))).setCol "roi"
        (roi0.map (Value.roundV 2))).rows.length
      = (df.setCol "ctr" (ctr0.map (Value.roundV 4))).rows.length :=
    setCol_rows_length _ hlv2
  have hwf2 : ((df.setCol "ctr" (ctr0.map (Value.roundV 4))).setCol "roi"
        (roi0.map (Value.roundV 2))).wf = true :=
    setCol_wf_new _ hroi1 hwf1
  have hself1 : (df.setCol "ctr" (ctr0.map (Value.roundV 4))).getCol "ctr"
      = some (ctr0.map (Value.roundV 4)) := getCol_setCol_new_self _ hc hwf hlv1
  have hc2 : ((df.setCol "ctr" (ctr0.map (Value.roundV 4))).setCol "roi"
        (roi0.map (Value.roundV 2))).getCol "ctr" = some (ctr0.map (Value.roundV 4)) := by
    rw [getCol_setCol_new_other _ hroi1 hctr1mem hwf1 hlv2]
    exact hself1
  have hidxc : idxOf? "ctr" ((df.setCol "ctr" (ctr0.map (Value.roundV 4))).setCol "roi"
        (roi0.map (Value.roundV 2))).cols = some df.cols.length := by
    rw [hcols2, hcols1,
      idxOf?_append_left [ "roi" ] (List.mem_append_right _ (List.mem_singleton_self _)),
      idxOf?_append_self hc]
  have hlv1f : ((ctr0.map (Value.roundV 4)).map (Value.fillnaV (Value.num 0))).length
      = ((df.setCol "ctr" (ctr0.map (Value.roundV 4))).setCol "roi"
          (roi0.map (Value.roundV 2))).rows.length := by
    rw [List.length_map, hrows2, hrows1]
    exact hlv1
  have hcols3 : (((df.setCol "ctr" (ctr0.map (Value.roundV 4))).setCol "roi"
        (roi0.map (Value.roundV 2))).setCol "ctr"
        ((ctr0.map (Value.roundV 4)).map (Value.fillnaV (Value.num 0)))).cols
      = ((df.setCol "ctr" (ctr0.map (Value.roundV 4))).setCol "roi"
          (roi0.map (Value.roundV 2))).cols := setCol_cols_old _ hidxc
  have hrows3 : (((df.setCol "ctr" (ctr0.map (Value.roundV 4))).setCol "roi"
        (roi0.map (Value.roundV 2))).setCol "ctr"
        ((ctr0.map (Value.roundV 4)).map (Value.fillnaV (Value.num 0)))).rows.length
      = ((df.setCol "ctr" (ctr0.map (Value.roundV 4))).setCol "roi"
          (roi0.map (Value.roundV 2))).rows.length := setCol_rows_length _ hlv1f
  have hroimem2 : "roi" ∈ ((df.setCol "ctr" (ctr0.map (Value.roundV 4))).setCol "roi"
        (roi0.map (Value.roundV 2))).cols := by
    rw [hcols2]
    exact List.mem_append_right _ (List.mem_singleton_self _)
  have hself2 : ((df.setCol "ctr" (ctr0.map (Value.roundV 4))).setCol "roi"
        (roi0.map (Value.roundV 2))).getCol "roi" = some (roi0.map (Value.roundV 2)) :=
    getCol_setCol_new_self _ hroi1 hwf1 hlv2
  have hr3 : (((df.setCol "ctr" (ctr0.map (Value.roundV 4))).setCol "roi"
        (roi0.map (Value.roundV 2))).setCol "ctr"
        ((ctr0.map (Value.roundV 4)).map (Value.fillnaV (Value.num 0)))).getCol "roi"
      = some (roi0.map (Value.roundV 2)) := by
    rw [getCol_setCol_old_other _ hidxc hroimem2 (by decide) hlv1f]
    exact hself2
  have hfinal : transform_campaigns df
      = Except.ok ((((df.setCol "ctr" (ctr0.map (Value.roundV 4))).setCol "roi"
          (roi0.map (Value.roundV 2))).setCol "ctr"
          ((ctr0.map (Value.roundV 4)).map (Value.fillnaV (Value.num 0)))).setCol "roi"
          ((roi0.map (Value.roundV 2)).map (Value.fillnaV (Value.num 0)))) := by
    unfold transform_campaigns
    simp only [hcl, him, hz1, hrev, hsp, hz2, hz3, hc2, hr3]
  rw [hfinal] at heq
  have hdf : df' = (((df.setCol "ctr" (ctr0.map (Value.roundV 4))).setCol "roi"
      (roi0.map (Value.roundV 2))).setCol "ctr"
      ((ctr0.map (Value.roundV 4)).map (Value.fillnaV (Value.num 0)))).setCol "roi"
      ((roi0.map (Value.roundV 2)).map (Value.fillnaV (Value.num 0))) :=
    (Except.ok.inj heq).symm
  subst hdf
  have hidxr : idxOf? "roi" (((df.setCol "ctr" (ctr0.map (Value.roundV 4))).setCol "roi"
        (roi0.map (Value.roundV 2))).setCol "ctr"
        ((ctr0.map (Value.roundV 4)).map (Value.fillnaV (Value.num 0)))).cols
      = some (df.cols.length + 1) := by
    rw [hcols3, hcols2, hcols1]
    have hnr : "roi" ∉ df.cols ++ [ "ctr" ] := by
      rw [← hcols1]
      exact hroi1
    rw [idxOf?_append_self hnr]
    simp [List.length_append]
  have hlv2f : ((roi0.map (Value.roundV 2)).map (Value.fillnaV (Value.num 0))).length
      = (((df.setCol "ctr" (ctr0.map (Value.roundV 4))).setCol "roi"
          (roi0.map (Value.roundV 2))).setCol "ctr"
          ((ctr0.map (Value.roundV 4)).map (Value.fillnaV (Value.num 0)))).rows.length := by
    rw [List.length_map, hrows3, hrows2]
    exact hlv2
  refine ⟨?_, ?_, ?_⟩
  · rw [setCol_cols_old _ hidxr, hcols3, hcols2, hcols1, List.append_assoc]
    rfl
  · rw [setCol_rows_length _ hlv2f, hrows3, hrows2, hrows1]
  · intro c hcm
    have hcnc : c ≠ "ctr" := fun e => hc (e ▸ hcm)
    have hcnr : c ≠ "roi" := fun e => hr (e ▸ hcm)
    have hcm1 : c ∈ (df.setCol "ctr" (ctr0.map (Value.roundV 4))).cols := by
      rw [hcols1]
      exact List.mem_append_left _ hcm
    have hcm2 : c ∈ ((df.setCol "ctr" (ctr0.map (Value.roundV 4))).setCol "roi"
        (roi0.map (Value.roundV 2))).cols := by
      rw [hcols2]
      exact List.mem_append_left _ hcm1
    have hcm3 : c ∈ (((df.setCol "ctr" (ctr0.map (Value.roundV 4))).setCol "roi"
        (roi0.map (Value.roundV 2))).setCol "ctr"
        ((ctr0.map (Value.roundV 4)).map (Value.fillnaV (Value.num 0)))).cols := by
      rw [hcols3]
      exact hcm2
    rw [getCol_setCol_old_other _ hidxr hcm3 hcnr hlv2f,
      getCol_setCol_old_other _ hidxc hcm2 hcnc hlv1f,
      getCol_setCol_new_other _ hroi1 hcm1 hwf1 hlv2,
      getCol_setCol_new_other _ hc hcm hwf hlv1]

/-- C4 (amended): each transform appends only its derived column(s) at
the end of the record set and preserves the row count and every original
column's values in the result — but it is not pure in the claimed sense:
it assigns the derived columns on the caller's record set in place and
returns that same object, so the post-call argument and the returned
record set coincide (and differ from the original input). -/
theorem transforms_append_derived_preserve_columns :
    (∀ df df' : Frame, df.wf = true → "ctr" ∉ df.cols → "roi" ∉ df.cols →
      transform_campaigns df = Except.ok df' →
      df'.cols = df.cols ++ [ "ctr", "roi" ] ∧
      df'.rows.length = df.rows.length ∧
      (∀ c ∈ df.cols, df'.getCol c = df.getCol c) ∧
      transformCampaignsCall df = Except.ok (df', df')) ∧
    (∀ df df' : Frame, df.wf = true → "target_roi" ∉ df.cols →
      transform_targets df = Except.ok df' →
      df'.cols = df.cols ++ [ "target_roi" ] ∧
      df'.rows.length = df.rows.length ∧
      (∀ c ∈ df.cols, df'.getCol c = df.getCol c) ∧
      transformTargetsCall df = Except.ok (df', df')) ∧
    (∀ df df' : Frame, df.wf = true → "avg_order_value" ∉ df.cols →
      transform_customers df = Except.ok df' →
      df'.cols = df.cols ++ [ "avg_order_value" ] ∧
      df'.rows.length = df.rows.length ∧
      (∀ c ∈ df.cols, df'.getCol c = df.getCol c) ∧
      transformCustomersCall df = Except.ok (df', df')) := by
  refine ⟨?_, ?_, ?_⟩
  · intro df df' hwf hc hr heq
    rcases transform_campaigns_shape df df' hwf hc hr heq with ⟨h1, h2, h3⟩
    refine ⟨h1, h2, h3, ?_⟩
    unfold transformCampaignsCall
    rw [heq]
    rfl
  · intro df df' hwf hn heq
    rcases transform_targets_shape df df' hwf hn heq with ⟨h1, h2, h3⟩
    refine ⟨h1, h2, h3, ?_⟩
    unfold transformTargetsCall
    rw [heq]
    rfl
  · intro df df' hwf hn heq
    rcases transform_customers_shape df df' hwf hn heq with ⟨h1, h2, h3⟩
    refine ⟨h1, h2, h3, ?_⟩
    unfold transformCustomersCall
    rw [heq]
    rfl

/-- C4 witness: the amended description evaluated on the concrete target
frame: the transform appends exactly `target_roi`, keeps the single row,
preserves the original `tenant_id` column, and its call view returns the
mutated argument itself as the result. -/
theorem transforms_append_derived_preserve_columns_witness :
    exTargetTransformed.cols = exTargetFrame.cols ++ [ "target_roi" ] ∧
    exTargetTransformed.rows.length = exTargetFrame.rows.length ∧
    exTargetTransformed.getCol "tenant_id" = exTargetFrame.getCol "tenant_id" ∧
    transformTargetsCall exTargetFrame = Except.ok (exTargetTransformed, exTargetTransformed) := by
  have h := transforms_append_derived_preserve_columns.2.1 exTargetFrame exTargetTransformed
    (by decide) (by decide) (by rfl)
  exact ⟨h.1, h.2.1, h.2.2.1 "tenant_id" (by decide), h.2.2.2⟩
